import Mathlib

/-
Verification of the shared training harness in
src/models/curiosity_models.py (MLP, CNN, TransformerEncoder, Reformer and
GNN LightningModules).

Tensor values are modelled over the rationals where the code only uses
field arithmetic and comparisons, and over the reals where transcendental
functions (exp, log, sin, cos, real powers) appear.  Shapes are modelled
as lists of natural numbers, with `Option` capturing runtime
shape-mismatch errors.  Object identity of tensors (for the in-place
claims) is modelled with a small heap of tensor values addressed by
position.
-/

namespace Curiosity

/-! ## Label transform (`class_idx_to_sig`, identical in all five variants)

Source (src/models/curiosity_models.py lines 39-42):
  max_min_sig = (self.num_classes-1)/2
  idx[idx > max_min_sig] = -1*(idx[idx>max_min_sig] - max_min_sig)
  return idx
The masked assignment reads and writes the same tensor, so elementwise it
maps v to -1*(v - m) when v > m and leaves v unchanged otherwise, with
m = (num_classes - 1)/2 computed by true division. -/

/-- Elementwise action of `class_idx_to_sig` with `m = (num_classes-1)/2`. -/
def class_idx_to_sig_elt (num_classes : ℕ) (v : ℚ) : ℚ :=
  let max_min_sig : ℚ := ((num_classes : ℚ) - 1) / 2
  if v > max_min_sig then -1 * (v - max_min_sig) else v

/-- The label transform applied to a 1-D tensor of values. -/
def class_idx_to_sig (num_classes : ℕ) (idx : List ℚ) : List ℚ :=
  idx.map (class_idx_to_sig_elt num_classes)

/-! ## Validation / test steps, classification branch

Source (lines 54-78, repeated verbatim in every variant):
  class_idxs = y_hat.argmax(1)
  y_hat = class_idx_to_sig(class_idxs).unsqueeze(1)
  y = class_idx_to_sig(y.to(torch.float32))
  mse_loss = self.mse_loss(y_hat, y)
  l1_loss = self.l1_loss(y_hat, y)
  self.log('val_mse_loss', mse_loss); self.log('val_l1_loss', l1_loss)

`y_hat` after `unsqueeze(1)` has shape (B, 1) while the transformed `y`
keeps shape (B,); `nn.MSELoss`/`nn.L1Loss` broadcast such a pair to shape
(B, B) and average over all B*B entries.  That broadcast semantics is
modelled by `mse_col_row` / `l1_col_row`. -/

/-- Index of the first maximum of a row (torch.argmax over dim 1 returns
the first maximal index); accumulator form over the tail. -/
def argmax_aux : List ℚ → ℕ → ℕ → ℚ → ℕ
  | [], _, best, _ => best
  | x :: xs, i, best, m =>
      if x > m then argmax_aux xs (i+1) i x else argmax_aux xs (i+1) best m

/-- First-maximum index of a row; 0 on the empty row. -/
def argmax_row : List ℚ → ℕ
  | [] => 0
  | x :: xs => argmax_aux xs 1 0 x

/-- torch.argmax(y_hat, 1): per-row first-maximum index of a 2-D tensor. -/
def argmax_dim1 (rows : List (List ℚ)) : List ℕ :=
  rows.map argmax_row

/-- Mean of (p_i - t_j)^2 over all pairs: the value `nn.MSELoss()` returns
on a (B,1)-shaped input broadcast against a (B,)-shaped target. -/
def mse_col_row (p t : List ℚ) : ℚ :=
  ((p.map (fun a => (t.map (fun b => (a - b)^2)).sum)).sum)
    / ((p.length : ℚ) * (t.length : ℚ))

/-- Mean of |p_i - t_j| over all pairs: `nn.L1Loss()` on the same
broadcast pair of shapes. -/
def l1_col_row (p t : List ℚ) : ℚ :=
  ((p.map (fun a => (t.map (fun b => |a - b|)).sum)).sum)
    / ((p.length : ℚ) * (t.length : ℚ))

/-- Elementwise (paired) mean squared error between two same-length 1-D
tensors: the quantity the spec calls mean-squared-error between the
transformed values. -/
def mse_paired (p t : List ℚ) : ℚ :=
  ((List.zipWith (fun a b => (a - b)^2) p t).sum) / (p.length : ℚ)

/-- Elementwise (paired) mean absolute error between two same-length 1-D
tensors. -/
def l1_paired (p t : List ℚ) : ℚ :=
  ((List.zipWith (fun a b => |a - b|) p t).sum) / (p.length : ℚ)

/-- Classification branch of `validation_step` (lines 54-65): argmax over
classes, label-transform of prediction and target, the two losses on the
(B,1)-against-(B,) broadcast pair, logged under the step names. -/
def validation_step_cls (num_classes : ℕ) (logits : List (List ℚ))
    (y : List ℚ) : List (String × ℚ) :=
  let class_idxs := argmax_dim1 logits
  let y_hat := class_idx_to_sig num_classes (class_idxs.map (fun i => (i : ℚ)))
  let yt := class_idx_to_sig num_classes y
  let mse_loss := mse_col_row y_hat yt
  let l1_loss := l1_col_row y_hat yt
  [("val_mse_loss", mse_loss), ("val_l1_loss", l1_loss)]

/-- Classification branch of `test_step` (lines 67-78): identical
computation, logged under the test names. -/
def test_step_cls (num_classes : ℕ) (logits : List (List ℚ))
    (y : List ℚ) : List (String × ℚ) :=
  let class_idxs := argmax_dim1 logits
  let y_hat := class_idx_to_sig num_classes (class_idxs.map (fun i => (i : ℚ)))
  let yt := class_idx_to_sig num_classes y
  let mse_loss := mse_col_row y_hat yt
  let l1_loss := l1_col_row y_hat yt
  [("test_mse_loss", mse_loss), ("test_l1_loss", l1_loss)]

/-! ## Heap model for tensor object identity

`class_idx_to_sig` performs a masked in-place assignment on its argument
and returns the very same tensor object.  The validation/test steps pass
it `y.to(torch.float32)`, and `Tensor.to` returns the receiver itself
when the dtype already matches and a fresh copy otherwise.  Tensors live
in a heap (a list of tensor values addressed by position); `.to` either
returns the same address or allocates at the end. -/

/-- The two dtypes relevant to the validation path. -/
inductive DType where
  | int64
  | float32
deriving DecidableEq

/-- A tensor object: a dtype and its (1-D) payload. -/
structure TensorV where
  dtype : DType
  data : List ℚ

/-- Tensors addressed by position; allocation appends. -/
abbrev Heap := List TensorV

/-- Semantics of `y.to(torch.float32)`: same object when the dtype
already matches, otherwise a fresh copy at a new address. -/
def tensor_to (h : Heap) (r : ℕ) (dt : DType) : Heap × ℕ :=
  match h[r]? with
  | none => (h, r)
  | some t => if t.dtype = dt then (h, r) else (h ++ [⟨dt, t.data⟩], h.length)

/-- Heap-level `class_idx_to_sig` (lines 39-42): overwrites the payload
at the argument's address in place and returns that same address. -/
def class_idx_to_sig_heap (num_classes : ℕ) (h : Heap) (r : ℕ) : Heap × ℕ :=
  match h[r]? with
  | none => (h, r)
  | some t => (h.set r ⟨t.dtype, class_idx_to_sig num_classes t.data⟩, r)

/-- The target path of the classification validation/test steps
(lines 61 / 74): `y = class_idx_to_sig(y.to(torch.float32))`. -/
def val_target_path (num_classes : ℕ) (h : Heap) (yRef : ℕ) : Heap × ℕ :=
  let p := tensor_to h yRef DType.float32
  class_idx_to_sig_heap num_classes p.1 p.2

/-! ## Shape semantics of the forward passes

Shapes are lists of dimension sizes; `none` models a runtime
shape-mismatch error raised by the framework. -/

/-- Tensor shape: list of dimension sizes. -/
abbrev Shape := List ℕ

/-- nn.Linear(inF, outF) on a rank-2 input: checks the feature dimension
and replaces it (all call sites in this file apply Linear at rank 2). -/
def linearShape (inF outF : ℕ) : Shape → Option Shape
  | [b, f] => if f = inF then some [b, outF] else none
  | _ => none

/-- nn.Conv2d(cin, cout, k, stride=1, padding=pad) on a rank-4 input. -/
def conv2dShape (cin cout k pad : ℕ) : Shape → Option Shape
  | [b, c, hh, w] =>
      if c = cin ∧ k ≤ hh + 2 * pad ∧ k ≤ w + 2 * pad then
        some [b, cout, hh + 2 * pad - k + 1, w + 2 * pad - k + 1]
      else none
  | _ => none

/-- nn.LayerNorm(normS): the normalized shape must be a suffix of the
input shape; the shape itself is preserved. -/
def layerNormShape (normS : Shape) (s : Shape) : Option Shape :=
  if normS <:+ s then some s else none

/-- x.view(x.shape[0], -1): keep the leading dimension, flatten the rest. -/
def flattenFrom1Shape : Shape → Option Shape
  | b :: rest => some [b, rest.prod]
  | [] => none

/-- torch.mean(x, dim=0) / x.mean(dim=0): drops the leading dimension. -/
def meanDim0Shape : Shape → Option Shape
  | _ :: rest => some rest
  | [] => none

/-- x.squeeze(-1) at rank 2: drops the last dimension when it is 1. -/
def squeezeLastShape : Shape → Shape
  | [a, b] => if b = 1 then [a] else [a, b]
  | s => s

/-- x.unsqueeze(0): prepends a singleton dimension. -/
def unsqueeze0Shape (s : Shape) : Shape := 1 :: s

/-- nn.Embedding(vocab, d): appends the embedding dimension. -/
def embedShape (d : ℕ) (s : Shape) : Shape := s ++ [d]

/-- PositionalEncoding.forward on (seq, batch, feature): adds the first
seq rows of the stored (max_len, 1, d_model) buffer, so it needs
seq ≤ max_len and feature = d_model and preserves the shape. -/
def posEncShape (d maxLen : ℕ) : Shape → Option Shape
  | [se, b, dd] => if dd = d ∧ se ≤ maxLen then some [se, b, dd] else none
  | _ => none

/-- nn.TransformerEncoder stack: shape-preserving on a rank-3 input with
feature dimension d_model. -/
def encoderStackShape (d : ℕ) : Shape → Option Shape
  | [se, b, dd] => if dd = d then some [se, b, dd] else none
  | _ => none

/-- GATConv(cin, cout, heads=heads) with default concatenation: feature
dimension cin becomes cout*heads. -/
def gatConvShape (cin cout heads : ℕ) : Shape → Option Shape
  | [n, f] => if f = cin then some [n, cout * heads] else none
  | _ => none

/-! ## Variant configurations (mirroring each `__init__`) -/

/-- MLP constructor arguments (lines 11-12). -/
structure MLPCfg where
  lk_matrix_size : ℕ
  hidden_size : ℕ
  dropout : ℚ
  num_invariants : ℕ
  classification : Bool
  num_classes : ℕ

/-- CNN constructor arguments (lines 97-99). -/
structure CNNCfg where
  lk_matrix_size : ℕ
  kernel_size : ℕ
  layer_norm : Bool
  num_invariants : ℕ
  classification : Bool
  num_classes : ℕ

/-- TransformerEncoder constructor arguments (lines 221-223). -/
structure TransformerCfg where
  vocab_size : ℕ
  d_model : ℕ
  nhead : ℕ
  num_encoder_layers : ℕ
  dim_feedforward : ℕ
  max_seq_length : ℕ
  classification : Bool
  num_classes : ℕ

/-- GNN constructor arguments (line 432). -/
structure GNNCfg where
  hidden_channels : ℕ
  num_heads : ℕ
  num_layers : ℕ
  classification : Bool
  num_classes : ℕ

/-- MLP.forward (lines 30-37): fc1, fc2, fc3 with ReLU/dropout between;
the output layer fc3 (line 25) always has width num_invariants — the
constructor does not branch on the classification flag. -/
def MLP.forwardShape (cfg : MLPCfg) (s : Shape) : Option Shape :=
  (linearShape (cfg.lk_matrix_size ^ 2) cfg.hidden_size s).bind fun s1 =>
  (linearShape cfg.hidden_size cfg.hidden_size s1).bind fun s2 =>
  linearShape cfg.hidden_size cfg.num_invariants s2

/-- CNN.forward (lines 138-162): three stride-1 convolutions with
optional LayerNorm, flatten, fc1 to width 1000, fc2 to num_classes in
classification mode and num_invariants otherwise.  The padding is
int(kernel_size == 3) (line 113). -/
def CNN.forwardShape (cfg : CNNCfg) (s : Shape) : Option Shape :=
  let k := cfg.kernel_size
  let p := if k = 3 then 1 else 0
  let lk := cfg.lk_matrix_size
  (conv2dShape 1 16 k p s).bind fun s1 =>
  (if cfg.layer_norm then
      layerNormShape [16, lk - (3 - k), lk - (3 - k)] s1
    else some s1).bind fun s1b =>
  (conv2dShape 16 32 k p s1b).bind fun s2 =>
  (if cfg.layer_norm then
      layerNormShape [32, lk - 2 * (3 - k), lk - 2 * (3 - k)] s2
    else some s2).bind fun s2b =>
  (conv2dShape 32 64 k p s2b).bind fun s3 =>
  (if cfg.layer_norm then
      layerNormShape [64, lk - 3 * (3 - k), lk - 3 * (3 - k)] s3
    else some s3).bind fun s3b =>
  (flattenFrom1Shape s3b).bind fun s4 =>
  (linearShape (64 * (lk - 3 * (3 - k)) ^ 2) 1000 s4).bind fun s5 =>
  linearShape 1000 (if cfg.classification then cfg.num_classes else cfg.num_invariants) s5

/-- TransformerEncoder.forward (lines 246-265): embed, positional
encoding, encoder stack, mean over the sequence dimension, final linear
layer of width num_classes (classification) or 1 (regression), then
squeeze(-1). -/
def TransformerEncoder.forwardShape (cfg : TransformerCfg) (s : Shape) : Option Shape :=
  let s1 := embedShape cfg.d_model s
  (posEncShape cfg.d_model cfg.max_seq_length s1).bind fun s2 =>
  (encoderStackShape cfg.d_model s2).bind fun s3 =>
  (meanDim0Shape s3).bind fun s4 =>
  (linearShape cfg.d_model
      (if cfg.classification then cfg.num_classes else 1) s4).map squeezeLastShape

/-- GNN.forward (lines 443-463): two GAT layers (a third when
num_layers = 3; the source reads a bare `num_layers` name there, the
constructor argument being the evident referent), mean over the node
dimension, unsqueeze(0), final linear layer of width num_classes
(classification) or 1. -/
def GNN.forwardShape (cfg : GNNCfg) (s : Shape) : Option Shape :=
  (gatConvShape 1 cfg.hidden_channels cfg.num_heads s).bind fun s1 =>
  (gatConvShape (cfg.hidden_channels * cfg.num_heads) cfg.hidden_channels
      cfg.num_heads s1).bind fun s2 =>
  (if cfg.num_layers = 3 then
      gatConvShape (cfg.hidden_channels * cfg.num_heads) cfg.hidden_channels
        cfg.num_heads s2
    else some s2).bind fun s3 =>
  (meanDim0Shape s3).bind fun s4 =>
  linearShape (cfg.hidden_channels * cfg.num_heads)
    (if cfg.classification then cfg.num_classes else 1) (unsqueeze0Shape s4)

/-! ## Optimizer and scheduler configuration -/

/-- The data returned by `configure_optimizers` for the exponential-decay
variants: Adam learning rate, ExponentialLR gamma, and the lr_scheduler
dictionary entries. -/
structure OptimizerSetup where
  lr : ℚ
  gamma : ℚ
  interval : String
  frequency : ℕ
  name : String

/-- MLP.configure_optimizers (lines 80-93): Adam(lr=.001),
ExponentialLR(gamma=0.95), stepped per epoch under the name exp_lr. -/
def MLP.configure_optimizers : OptimizerSetup :=
  ⟨0.001, 0.95, "epoch", 1, "exp_lr"⟩

/-- CNN.configure_optimizers (lines 205-217), same values (the source
has a stray token in the name entry; the value is the evident "exp_lr"). -/
def CNN.configure_optimizers : OptimizerSetup :=
  ⟨0.001, 0.95, "epoch", 1, "exp_lr"⟩

/-- GNN.configure_optimizers (lines 506-518), same values. -/
def GNN.configure_optimizers : OptimizerSetup :=
  ⟨0.001, 0.95, "epoch", 1, "exp_lr"⟩

/-- Semantics of the external collaborator torch ExponentialLR stepped
once per epoch: after k epochs the learning rate is lr * gamma ^ k. -/
def effective_lr (setup : OptimizerSetup) (k : ℕ) : ℚ :=
  setup.lr * setup.gamma ^ k

/-! ## Noam schedule (TransformerEncoder lines 308-324, Reformer lines
412-428, textually identical)

  def noam_lambda(step):
      return (self.d_model ** -0.5) * min((step + 1) ** -0.5,
                                          (step + 1) * self.warmup_steps ** -1.5)

LambdaLR multiplies the base learning rate 0.001 by this factor; its
argument starts at 0, so the n-th batch (counting from 1) uses
noam_lambda (n-1).  `warmup_steps` is never assigned in the constructor
(a latent bug the spec flags); it is a parameter here. -/

/-- The per-step multiplicative factor handed to LambdaLR. -/
noncomputable def noam_lambda (d_model warmup_steps : ℕ) (step : ℕ) : ℝ :=
  ((d_model : ℝ) ^ (-0.5 : ℝ)) *
    min (((step : ℝ) + 1) ^ (-0.5 : ℝ))
      (((step : ℝ) + 1) * ((warmup_steps : ℝ) ^ (-1.5 : ℝ)))

/-- The learning rate LambdaLR produces from the Adam base rate 0.001. -/
noncomputable def noam_lr (d_model warmup_steps : ℕ) (step : ℕ) : ℝ :=
  (0.001 : ℝ) * noam_lambda d_model warmup_steps step

/-! ## Positional encoding (lines 326-341)

  pe = torch.zeros(max_len, d_model)
  position = torch.arange(0, max_len).unsqueeze(1)
  div_term = torch.exp(torch.arange(0, d_model, 2).float() * (-math.log(10000.0) / d_model))
  pe[:, 0::2] = torch.sin(position * div_term)
  pe[:, 1::2] = torch.cos(position * div_term)

The sin assignment fills the ceil(d_model/2) even columns from the
ceil(d_model/2) entries of div_term.  The cos assignment writes the same
ceil(d_model/2)-wide tensor into the floor(d_model/2) odd columns, which
is a runtime shape mismatch whenever d_model is odd; the construction
therefore only succeeds for even d_model. -/

/-- div_term entry i (i-th element of torch.arange(0, d_model, 2)). -/
noncomputable def div_term (d_model i : ℕ) : ℝ :=
  Real.exp (((2 * i : ℕ) : ℝ) * (-(Real.log 10000) / (d_model : ℝ)))

/-- Entry (pos, j) of the filled table: sin on even columns, cos on odd
columns, with angle pos * div_term (j / 2). -/
noncomputable def pos_enc_entry (d_model pos j : ℕ) : ℝ :=
  if j % 2 = 0 then Real.sin ((pos : ℝ) * div_term d_model (j / 2))
  else Real.cos ((pos : ℝ) * div_term d_model (j / 2))

/-- The (max_len, d_model) table built by the constructor, as far as the
two masked assignments succeed; `none` for odd d_model where the cos
assignment raises a shape mismatch. -/
noncomputable def pos_enc_table (d_model max_len : ℕ) : Option (List (List ℝ)) :=
  if d_model % 2 = 0 then
    some ((List.range max_len).map fun pos =>
      (List.range d_model).map fun j => pos_enc_entry d_model pos j)
  else none

/-! ## Training step (lines 44-52, repeated verbatim in every variant)

  x, y = batch
  y_hat = self(x)
  if self.classification :
      loss = self.cross_entropy(y_hat, y)
  else :
      loss = self.mse_loss(y_hat, y)
  self.log('train_loss', loss)
  return loss

with `self.cross_entropy = nn.CrossEntropyLoss(label_smoothing=0.1)`
constructed when classification is set (lines 20-21).  In classification
mode the target tensor holds class indices, in regression mode it holds
continuous values; that dtype is the `TargetBatch` sum below. -/

/-- log(sum exp) of a logit row. -/
noncomputable def log_sum_exp (z : List ℝ) : ℝ :=
  Real.log ((z.map Real.exp).sum)

/-- log-softmax of a logit row evaluated at class k. -/
noncomputable def log_softmax_at (z : List ℝ) (k : ℕ) : ℝ :=
  z.getD k 0 - log_sum_exp z

/-- Per-sample cross entropy with label smoothing eps: the smoothed
target puts weight (1-eps) + eps/C on the true class and eps/C on every
other class (torch semantics of nn.CrossEntropyLoss(label_smoothing=eps)). -/
noncomputable def cross_entropy_sample (eps : ℝ) (z : List ℝ) (c : ℕ) : ℝ :=
  -(((List.range z.length).map fun k =>
      ((if k = c then 1 - eps else 0) + eps / (z.length : ℝ)) *
        log_softmax_at z k).sum)

/-- Batch cross entropy with label smoothing, mean reduction. -/
noncomputable def cross_entropy_smoothed (eps : ℝ)
    (logits : List (List ℝ)) (targets : List ℕ) : ℝ :=
  ((List.zipWith (cross_entropy_sample eps) logits targets).sum)
    / ((logits.length : ℝ))

/-- nn.MSELoss on two same-shaped rank-2 tensors: mean of elementwise
squared differences. -/
noncomputable def mse_loss_mean (p t : List (List ℝ)) : ℝ :=
  ((List.zipWith (fun x y => (x - y) ^ 2) p.flatten t.flatten).sum)
    / ((p.flatten.length : ℝ))

/-- The target of a batch: class indices in classification mode,
continuous values in regression mode. -/
inductive TargetBatch where
  | cls (idxs : List ℕ)
  | reg (vals : List (List ℝ))

/-- training_step after the forward pass: picks the loss by the
classification flag, logs it as train_loss and returns it.  `none`
models the dtype error of feeding a regression target to cross entropy
or vice versa. -/
noncomputable def training_step (classification : Bool)
    (y_hat : List (List ℝ)) (y : TargetBatch) :
    Option (List (String × ℝ) × ℝ) :=
  match classification, y with
  | true, TargetBatch.cls c =>
      let loss := cross_entropy_smoothed 0.1 y_hat c
      some ([("train_loss", loss)], loss)
  | false, TargetBatch.reg r =>
      let loss := mse_loss_mean y_hat r
      some ([("train_loss", loss)], loss)
  | _, _ => none

/-! ## Helper lemmas -/

/-- For odd num_classes = 2k+1, the float midpoint (num_classes-1)/2 is
the integer k. -/
lemma half_pred_cast (n k : ℕ) (hk : n = 2 * k + 1) :
    ((n : ℚ) - 1) / 2 = (k : ℚ) := by
  subst hk; push_cast; ring

/-- The label transform is idempotent: a transformed value is at most the
midpoint, so a second application leaves it unchanged. -/
lemma class_idx_to_sig_elt_idem (n : ℕ) (hn : 1 ≤ n) (v : ℚ) :
    class_idx_to_sig_elt n (class_idx_to_sig_elt n v) = class_idx_to_sig_elt n v := by
  have hm0 : (0 : ℚ) ≤ ((n : ℚ) - 1) / 2 := by
    have : (1 : ℚ) ≤ (n : ℚ) := by exact_mod_cast hn
    linarith
  unfold class_idx_to_sig_elt
  by_cases h : ((n : ℚ) - 1) / 2 < v
  · rw [if_pos h, if_neg]
    simp only [not_lt]
    nlinarith
  · rw [if_neg h, if_neg h]

/-! ## Claims -/

/-- C1: for every odd num_classes and class index i in range, the label
transform returns i unchanged when i ≤ m and -(i - m) when i > m, where
m = (num_classes-1)/2. -/
theorem claim1_label_transform (n : ℕ) (hodd : Odd n) (i : ℕ) (_hi : i < n) :
    ((i : ℚ) ≤ (((n - 1) / 2 : ℕ) : ℚ) →
      class_idx_to_sig_elt n (i : ℚ) = (i : ℚ)) ∧
    ((((n - 1) / 2 : ℕ) : ℚ) < (i : ℚ) →
      class_idx_to_sig_elt n (i : ℚ) = -((i : ℚ) - (((n - 1) / 2 : ℕ) : ℚ))) := by
  obtain ⟨k, hk⟩ := hodd
  have hk2 : n = 2 * k + 1 := by omega
  have hm : (n - 1) / 2 = k := by omega
  have hq : ((n : ℚ) - 1) / 2 = (k : ℚ) := half_pred_cast n k hk2
  rw [hm]
  constructor
  · intro hle
    have hc : ¬ ((k : ℚ) < (i : ℚ)) := not_lt.mpr hle
    simp only [class_idx_to_sig_elt, hq]
    rw [if_neg hc]
  · intro hlt
    simp only [class_idx_to_sig_elt, hq]
    rw [if_pos hlt]
    ring

/-- C1 witness: num_classes = 5, i = 4 > m = 2 is sent to -(4 - 2). -/
theorem claim1_witness :
    Odd 5 ∧ 4 < 5 ∧ class_idx_to_sig_elt 5 ((4 : ℕ) : ℚ) =
      -(((4 : ℕ) : ℚ) - (((5 - 1) / 2 : ℕ) : ℚ)) :=
  ⟨by decide, by norm_num,
    (claim1_label_transform 5 (by decide) 4 (by norm_num)).2 (by norm_num)⟩

/-- C9 counterexample: at num_classes = 41 there is no in-range index on
which the label transform composed with itself differs from a single
application — the transform is idempotent, refuting the claim. -/
theorem claim9_counterexample :
    ¬ ∃ i : ℕ, i < 41 ∧
      class_idx_to_sig_elt 41 (class_idx_to_sig_elt 41 (i : ℚ)) ≠
        class_idx_to_sig_elt 41 (i : ℚ) := by
  rintro ⟨i, -, hne⟩
  exact hne (class_idx_to_sig_elt_idem 41 (by norm_num) _)

/-- C9 amended: for every odd num_classes ≥ 3 the label transform is
idempotent on in-range indices, while composing it with itself differs
from the identity on at least one in-range index (the fold is
one-directional but stable under repetition). -/
theorem claim9_idempotent (n : ℕ) (hodd : Odd n) (h3 : 3 ≤ n) :
    (∀ i : ℕ, i < n →
      class_idx_to_sig_elt n (class_idx_to_sig_elt n (i : ℚ)) =
        class_idx_to_sig_elt n (i : ℚ)) ∧
    (∃ i : ℕ, i < n ∧
      class_idx_to_sig_elt n (class_idx_to_sig_elt n (i : ℚ)) ≠ (i : ℚ)) := by
  obtain ⟨k, hk⟩ := hodd
  have hk2 : n = 2 * k + 1 := by omega
  have hq : ((n : ℚ) - 1) / 2 = (k : ℚ) := half_pred_cast n k hk2
  refine ⟨fun i _ => class_idx_to_sig_elt_idem n (by omega) _, ⟨k + 1, by omega, ?_⟩⟩
  rw [class_idx_to_sig_elt_idem n (by omega)]
  have h1 : ((n : ℚ) - 1) / 2 < ((k + 1 : ℕ) : ℚ) := by
    rw [hq]; push_cast; linarith
  unfold class_idx_to_sig_elt
  rw [if_pos h1, hq]
  push_cast
  intro hcontra
  have : (0 : ℚ) ≤ (k : ℚ) := by positivity
  nlinarith

/-- C9 witness: the amended statement at num_classes = 5. -/
theorem claim9_witness :
    (Odd 5 ∧ 3 ≤ 5) ∧
    ((∀ i : ℕ, i < 5 →
        class_idx_to_sig_elt 5 (class_idx_to_sig_elt 5 (i : ℚ)) =
          class_idx_to_sig_elt 5 (i : ℚ)) ∧
      (∃ i : ℕ, i < 5 ∧
        class_idx_to_sig_elt 5 (class_idx_to_sig_elt 5 (i : ℚ)) ≠ (i : ℚ))) :=
  ⟨⟨by decide, by norm_num⟩, claim9_idempotent 5 (by decide) (by norm_num)⟩

/-- C2: evaluation of the classification validation/test step on a
concrete batch of two samples (num_classes = 5, logits picking classes 0
and 4, targets 0 and 4).  The transformed predictions and targets agree
elementwise, so the mean-squared-error and mean-absolute-error between
the transformed values are 0, yet the step logs val_mse_loss = 2 and
val_l1_loss = 1 (and the test step the same under test names): the
(B,1)-shaped prediction is broadcast against the (B,)-shaped target and
averaged over all four cross pairs. -/
theorem claim2_broadcast_eval :
    validation_step_cls 5 [[1,0,0,0,0],[0,0,0,0,1]] [0,4] =
      [("val_mse_loss", 2), ("val_l1_loss", 1)] ∧
    test_step_cls 5 [[1,0,0,0,0],[0,0,0,0,1]] [0,4] =
      [("test_mse_loss", 2), ("test_l1_loss", 1)] ∧
    mse_paired
      (class_idx_to_sig 5
        ((argmax_dim1 [[1,0,0,0,0],[0,0,0,0,1]]).map (fun i => (i : ℚ))))
      (class_idx_to_sig 5 [0,4]) = 0 ∧
    l1_paired
      (class_idx_to_sig 5
        ((argmax_dim1 [[1,0,0,0,0],[0,0,0,0,1]]).map (fun i => (i : ℚ))))
      (class_idx_to_sig 5 [0,4]) = 0 ∧
    (2 : ℚ) ≠ 0 := by
  norm_num [validation_step_cls, test_step_cls, argmax_dim1, argmax_row,
    argmax_aux, class_idx_to_sig, class_idx_to_sig_elt, mse_col_row,
    l1_col_row, mse_paired, l1_paired]

/-- C3: the training step computes cross entropy with label smoothing
1/10 when the model was constructed in classification mode and mean
squared error otherwise, logs the scalar as train_loss and returns that
same value. -/
theorem claim3_training_step :
    ∀ (y_hat : List (List ℝ)) (c : List ℕ) (r : List (List ℝ)),
      training_step true y_hat (TargetBatch.cls c) =
        some ([("train_loss", cross_entropy_smoothed (1/10) y_hat c)],
          cross_entropy_smoothed (1/10) y_hat c) ∧
      training_step false y_hat (TargetBatch.reg r) =
        some ([("train_loss", mse_loss_mean y_hat r)], mse_loss_mean y_hat r) := by
  intro y_hat c r
  have h01 : (0.1 : ℝ) = 1 / 10 := by norm_num
  constructor
  · simp only [training_step, h01]
  · simp only [training_step]

/-- C5: MLP, CNN and GNN all configure Adam at learning rate 0.001 with
an ExponentialLR of gamma 0.95 stepped once per epoch, so after k epochs
the effective learning rate is 0.001 * 0.95 ^ k. -/
theorem claim5_exponential_lr :
    ∀ k : ℕ,
      MLP.configure_optimizers.lr = 0.001 ∧
      MLP.configure_optimizers.gamma = 0.95 ∧
      MLP.configure_optimizers.interval = "epoch" ∧
      MLP.configure_optimizers.frequency = 1 ∧
      CNN.configure_optimizers = MLP.configure_optimizers ∧
      GNN.configure_optimizers = MLP.configure_optimizers ∧
      effective_lr MLP.configure_optimizers k = 0.001 * 0.95 ^ k ∧
      effective_lr CNN.configure_optimizers k = 0.001 * 0.95 ^ k ∧
      effective_lr GNN.configure_optimizers k = 0.001 * 0.95 ^ k := by
  intro k
  exact ⟨rfl, rfl, rfl, rfl, rfl, rfl, rfl, rfl, rfl⟩

/-- C10 counterexample: an integer-dtype label tensor [0, 4] at address 0
with num_classes = 5.  The validation target path y =
class_idx_to_sig(y.to(torch.float32)) leaves the caller's tensor at
address 0 untouched (it still holds [0, 4]); the transform mutates the
fresh float copy at address 1, which ends up holding [0, -2] ≠ [0, 4].
The caller's original labels are not destroyed, refuting the claim. -/
theorem claim10_counterexample :
    (val_target_path 5 [⟨DType.int64, [0, 4]⟩] 0).1[0]? =
      some ⟨DType.int64, [0, 4]⟩ ∧
    (val_target_path 5 [⟨DType.int64, [0, 4]⟩] 0).2 = 1 ∧
    (val_target_path 5 [⟨DType.int64, [0, 4]⟩] 0).1[1]? =
      some ⟨DType.float32, [0, -2]⟩ ∧
    ([(0 : ℚ), 4] ≠ [(0 : ℚ), -2]) := by
  have hne : DType.int64 ≠ DType.float32 := fun h => DType.noConfusion h
  norm_num [val_target_path, tensor_to, class_idx_to_sig_heap,
    class_idx_to_sig, class_idx_to_sig_elt, hne]

/-- C10 amended: class_idx_to_sig does mutate its argument in place and
return the very tensor it was passed; but the validation/test steps pass
it y.to(torch.float32), so the caller's original labels are overwritten
exactly when y is already float32 — an integer label tensor survives and
the fresh float copy is mutated instead. -/
theorem claim10_inplace (n : ℕ) (h : Heap) (r : ℕ) (t : TensorV)
    (hr : h[r]? = some t) :
    ((class_idx_to_sig_heap n h r).2 = r ∧
      (class_idx_to_sig_heap n h r).1[r]? =
        some ⟨t.dtype, class_idx_to_sig n t.data⟩) ∧
    (t.dtype = DType.float32 →
      (val_target_path n h r).1[r]? =
        some ⟨t.dtype, class_idx_to_sig n t.data⟩) ∧
    (t.dtype ≠ DType.float32 →
      (val_target_path n h r).1[r]? = some t ∧
      (val_target_path n h r).2 = h.length ∧
      (val_target_path n h r).1[h.length]? =
        some ⟨DType.float32, class_idx_to_sig n t.data⟩) := by
  have hrlen : r < h.length := by
    by_contra hge
    rw [List.getElem?_eq_none (by omega)] at hr
    exact Option.noConfusion hr
  refine ⟨⟨?_, ?_⟩, ?_, ?_⟩
  · simp only [class_idx_to_sig_heap, hr]
  · simp only [class_idx_to_sig_heap, hr]
    exact List.getElem?_set_eq_of_lt _ hrlen
  · intro hf
    have ht : tensor_to h r DType.float32 = (h, r) := by
      simp only [tensor_to, hr, if_pos hf]
    have hc : class_idx_to_sig_heap n h r =
        (h.set r ⟨t.dtype, class_idx_to_sig n t.data⟩, r) := by
      simp only [class_idx_to_sig_heap, hr]
    simp only [val_target_path, ht, hc]
    exact List.getElem?_set_eq_of_lt _ hrlen
  · intro hf
    have ht : tensor_to h r DType.float32 =
        (h ++ [⟨DType.float32, t.data⟩], h.length) := by
      simp only [tensor_to, hr, if_neg hf]
    have happ : (h ++ [(⟨DType.float32, t.data⟩ : TensorV)])[h.length]? =
        some ⟨DType.float32, t.data⟩ := by
      rw [List.getElem?_append_right (le_refl _)]
      simp
    have hc : class_idx_to_sig_heap n
          (h ++ [(⟨DType.float32, t.data⟩ : TensorV)]) h.length =
        ((h ++ [(⟨DType.float32, t.data⟩ : TensorV)]).set h.length
            ⟨DType.float32, class_idx_to_sig n t.data⟩, h.length) := by
      simp only [class_idx_to_sig_heap, happ]
    refine ⟨?_, ?_, ?_⟩
    · simp only [val_target_path, ht, hc]
      rw [List.getElem?_set_ne (by omega)]
      rw [List.getElem?_append, if_pos hrlen]
      exact hr
    · simp only [val_target_path, ht, hc]
    · simp only [val_target_path, ht, hc]
      exact List.getElem?_set_eq_of_lt _ (by simp)

/-- C10 witness: a float32 tensor [3] at address 0 with num_classes = 3;
the in-place transform keeps address 0 and overwrites it, and the
validation target path destroys the caller's labels. -/
theorem claim10_witness :
    (([⟨DType.float32, [(3 : ℚ)]⟩] : Heap)[0]? =
      some ⟨DType.float32, [(3 : ℚ)]⟩) ∧
    (((class_idx_to_sig_heap 3 [⟨DType.float32, [(3 : ℚ)]⟩] 0).2 = 0 ∧
      (class_idx_to_sig_heap 3 [⟨DType.float32, [(3 : ℚ)]⟩] 0).1[0]? =
        some ⟨DType.float32, class_idx_to_sig 3 [(3 : ℚ)]⟩) ∧
     (DType.float32 = DType.float32 →
       (val_target_path 3 [⟨DType.float32, [(3 : ℚ)]⟩] 0).1[0]? =
         some ⟨DType.float32, class_idx_to_sig 3 [(3 : ℚ)]⟩) ∧
     (DType.float32 ≠ DType.float32 →
       (val_target_path 3 [⟨DType.float32, [(3 : ℚ)]⟩] 0).1[0]? =
         some ⟨DType.float32, [(3 : ℚ)]⟩ ∧
       (val_target_path 3 [⟨DType.float32, [(3 : ℚ)]⟩] 0).2 =
         ([⟨DType.float32, [(3 : ℚ)]⟩] : Heap).length ∧
       (val_target_path 3 [⟨DType.float32, [(3 : ℚ)]⟩] 0).1[
           ([⟨DType.float32, [(3 : ℚ)]⟩] : Heap).length]? =
         some ⟨DType.float32, class_idx_to_sig 3 [(3 : ℚ)]⟩)) :=
  ⟨rfl, claim10_inplace 3 [⟨DType.float32, [(3 : ℚ)]⟩] 0 ⟨DType.float32, [(3 : ℚ)]⟩ rfl⟩

/-! ## Noam schedule lemmas and claim C4 -/

/-- In the warm-up region x ≤ w the min in the Noam factor is attained by
the linear branch x * w^(-1.5). -/
lemma noam_min_warm (x w : ℝ) (hx : 0 < x) (hw : 0 < w) (hxw : x ≤ w) :
    min (x ^ (-0.5 : ℝ)) (x * w ^ (-1.5 : ℝ)) = x * w ^ (-1.5 : ℝ) := by
  apply min_eq_right
  have h15 : x ^ (1.5 : ℝ) ≤ w ^ (1.5 : ℝ) :=
    Real.rpow_le_rpow hx.le hxw (by norm_num)
  have hxp : (0 : ℝ) < x ^ (1.5 : ℝ) := Real.rpow_pos_of_pos hx _
  have hinv : (w ^ (1.5 : ℝ))⁻¹ ≤ (x ^ (1.5 : ℝ))⁻¹ :=
    inv_anti₀ hxp h15
  calc x * w ^ (-1.5 : ℝ) = x * (w ^ (1.5 : ℝ))⁻¹ := by
        rw [Real.rpow_neg hw.le]
    _ ≤ x * (x ^ (1.5 : ℝ))⁻¹ := mul_le_mul_of_nonneg_left hinv hx.le
    _ = x ^ (1 : ℝ) * x ^ (-1.5 : ℝ) := by
        rw [Real.rpow_one, Real.rpow_neg hx.le]
    _ = x ^ (-0.5 : ℝ) := by
        rw [← Real.rpow_add hx]; norm_num

/-- In the decay region w ≤ x the min in the Noam factor is attained by
the inverse-square-root branch x^(-0.5). -/
lemma noam_min_decay (x w : ℝ) (hw : 0 < w) (hwx : w ≤ x) :
    min (x ^ (-0.5 : ℝ)) (x * w ^ (-1.5 : ℝ)) = x ^ (-0.5 : ℝ) := by
  have hx : 0 < x := lt_of_lt_of_le hw hwx
  apply min_eq_left
  have h15 : w ^ (1.5 : ℝ) ≤ x ^ (1.5 : ℝ) :=
    Real.rpow_le_rpow hw.le hwx (by norm_num)
  have hwp : (0 : ℝ) < w ^ (1.5 : ℝ) := Real.rpow_pos_of_pos hw _
  have hinv : (x ^ (1.5 : ℝ))⁻¹ ≤ (w ^ (1.5 : ℝ))⁻¹ :=
    inv_anti₀ hwp h15
  calc x ^ (-0.5 : ℝ) = x ^ (1 : ℝ) * x ^ (-1.5 : ℝ) := by
        rw [← Real.rpow_add hx]; norm_num
    _ = x * (x ^ (1.5 : ℝ))⁻¹ := by
        rw [Real.rpow_one, Real.rpow_neg hx.le]
    _ ≤ x * (w ^ (1.5 : ℝ))⁻¹ := mul_le_mul_of_nonneg_left hinv hx.le
    _ = x * w ^ (-1.5 : ℝ) := by rw [Real.rpow_neg hw.le]

/-- x ↦ x^(-0.5) is strictly decreasing on positive reals. -/
lemma rpow_neg_half_anti (a b : ℝ) (ha : 0 < a) (hab : a < b) :
    b ^ (-0.5 : ℝ) < a ^ (-0.5 : ℝ) := by
  have hb : 0 < b := lt_trans ha hab
  rw [Real.rpow_neg ha.le, Real.rpow_neg hb.le]
  exact inv_strictAnti₀ (Real.rpow_pos_of_pos ha _)
    (Real.rpow_lt_rpow ha.le hab (by norm_num))

/-- C4: counting batches from 1, the Noam factor of the n-th batch
(LambdaLR argument n-1) is d_model^(-0.5) * min(n^(-0.5), n * w^(-1.5));
the resulting learning rate strictly increases while the step count is
below warmup_steps, strictly decreases past it, and in the decay region
equals d_model^(-0.5) * n^(-0.5) exactly (inverse square root of the
step count).  This covers TransformerEncoder.configure_optimizers and
the textually identical Reformer.configure_optimizers. -/
theorem claim4_noam (d w : ℕ) (hd : 1 ≤ d) (hw : 1 ≤ w) :
    (∀ n : ℕ, 1 ≤ n →
      noam_lambda d w (n - 1) =
        ((d : ℝ) ^ (-0.5 : ℝ)) *
          min ((n : ℝ) ^ (-0.5 : ℝ)) ((n : ℝ) * (w : ℝ) ^ (-1.5 : ℝ))) ∧
    (∀ n : ℕ, 1 ≤ n → n < w → noam_lr d w (n - 1) < noam_lr d w n) ∧
    (∀ n : ℕ, w < n → noam_lr d w n < noam_lr d w (n - 1)) ∧
    (∀ n : ℕ, w ≤ n → 1 ≤ n →
      noam_lambda d w (n - 1) =
        ((d : ℝ) ^ (-0.5 : ℝ)) * ((n : ℝ) ^ (-0.5 : ℝ))) := by
  have hdR : (0 : ℝ) < (d : ℝ) := by exact_mod_cast hd
  have hwR : (0 : ℝ) < (w : ℝ) := by exact_mod_cast hw
  have hC : (0 : ℝ) < (d : ℝ) ^ (-0.5 : ℝ) := Real.rpow_pos_of_pos hdR _
  have hW : (0 : ℝ) < (w : ℝ) ^ (-1.5 : ℝ) := Real.rpow_pos_of_pos hwR _
  have hstep : ∀ n : ℕ, 1 ≤ n → ((n - 1 : ℕ) : ℝ) + 1 = (n : ℝ) := by
    intro n hn
    rw [Nat.cast_sub hn]
    push_cast
    ring
  have hbase : ∀ n : ℕ, 1 ≤ n →
      noam_lambda d w (n - 1) =
        ((d : ℝ) ^ (-0.5 : ℝ)) *
          min ((n : ℝ) ^ (-0.5 : ℝ)) ((n : ℝ) * (w : ℝ) ^ (-1.5 : ℝ)) := by
    intro n hn
    unfold noam_lambda
    rw [hstep n hn]
  refine ⟨hbase, ?_, ?_, ?_⟩
  · intro n hn hnw
    have hnR : (0 : ℝ) < (n : ℝ) := by exact_mod_cast hn
    have h1 : noam_lambda d w (n - 1) =
        ((d : ℝ) ^ (-0.5 : ℝ)) * ((n : ℝ) * (w : ℝ) ^ (-1.5 : ℝ)) := by
      rw [hbase n hn, noam_min_warm _ _ hnR hwR (by exact_mod_cast hnw.le)]
    have h2 : noam_lambda d w n =
        ((d : ℝ) ^ (-0.5 : ℝ)) * (((n : ℝ) + 1) * (w : ℝ) ^ (-1.5 : ℝ)) := by
      unfold noam_lambda
      rw [noam_min_warm _ _ (by linarith) hwR (by exact_mod_cast hnw)]
    unfold noam_lr
    rw [h1, h2]
    have hlt : (n : ℝ) * (w : ℝ) ^ (-1.5 : ℝ) <
        ((n : ℝ) + 1) * (w : ℝ) ^ (-1.5 : ℝ) :=
      mul_lt_mul_of_pos_right (by linarith) hW
    nlinarith
  · intro n hwn
    have hn : 1 ≤ n := le_trans hw hwn.le
    have hnR : (0 : ℝ) < (n : ℝ) := by exact_mod_cast hn
    have hwnR : (w : ℝ) ≤ (n : ℝ) := by exact_mod_cast hwn.le
    have h1 : noam_lambda d w (n - 1) =
        ((d : ℝ) ^ (-0.5 : ℝ)) * ((n : ℝ) ^ (-0.5 : ℝ)) := by
      rw [hbase n hn, noam_min_decay _ _ hwR hwnR]
    have h2 : noam_lambda d w n =
        ((d : ℝ) ^ (-0.5 : ℝ)) * (((n : ℝ) + 1) ^ (-0.5 : ℝ)) := by
      unfold noam_lambda
      rw [noam_min_decay _ _ hwR (by linarith)]
    unfold noam_lr
    rw [h1, h2]
    have := rpow_neg_half_anti (n : ℝ) ((n : ℝ) + 1) hnR (by linarith)
    nlinarith
  · intro n hwn hn
    rw [hbase n hn, noam_min_decay _ _ hwR (by exact_mod_cast hwn)]

/-- C4 witness: the schedule at d_model = 4, warmup_steps = 2. -/
theorem claim4_witness :
    (1 ≤ 4 ∧ 1 ≤ 2) ∧
    ((∀ n : ℕ, 1 ≤ n →
        noam_lambda 4 2 (n - 1) =
          (((4 : ℕ) : ℝ) ^ (-0.5 : ℝ)) *
            min ((n : ℝ) ^ (-0.5 : ℝ)) ((n : ℝ) * ((2 : ℕ) : ℝ) ^ (-1.5 : ℝ))) ∧
      (∀ n : ℕ, 1 ≤ n → n < 2 → noam_lr 4 2 (n - 1) < noam_lr 4 2 n) ∧
      (∀ n : ℕ, 2 < n → noam_lr 4 2 n < noam_lr 4 2 (n - 1)) ∧
      (∀ n : ℕ, 2 ≤ n → 1 ≤ n →
        noam_lambda 4 2 (n - 1) =
          (((4 : ℕ) : ℝ) ^ (-0.5 : ℝ)) * ((n : ℝ) ^ (-0.5 : ℝ)))) :=
  ⟨⟨by norm_num, by norm_num⟩, claim4_noam 4 2 (by norm_num) (by norm_num)⟩

/-! ## Positional encoding lemmas and claim C8 -/

/-- The div_term entry is the real power 10000^(-(2i)/d). -/
lemma div_term_eq (d i : ℕ) :
    div_term d i = (10000 : ℝ) ^ (-(((2 * i : ℕ) : ℝ) / (d : ℝ))) := by
  unfold div_term
  rw [Real.rpow_def_of_pos (by norm_num : (0 : ℝ) < 10000)]
  congr 1
  ring

/-- C8 amended: for even d_model the table is built with shape
(max_len, d_model), its even columns hold sin(pos / 10000^(2i/d_model))
and its odd columns the corresponding cos, row 0 is the alternating
0,1,0,1,... pattern, and every entry lies in [-1, 1]. -/
theorem claim8_pos_enc (d L : ℕ) (hd : d % 2 = 0) :
    (∃ T, pos_enc_table d L = some T ∧ T.length = L ∧
      ∀ row ∈ T, row.length = d) ∧
    (∀ p i : ℕ, 2 * i < d →
      pos_enc_entry d p (2 * i) =
        Real.sin ((p : ℝ) / (10000 : ℝ) ^ ((2 * (i : ℝ)) / (d : ℝ)))) ∧
    (∀ p i : ℕ, 2 * i + 1 < d →
      pos_enc_entry d p (2 * i + 1) =
        Real.cos ((p : ℝ) / (10000 : ℝ) ^ ((2 * (i : ℝ)) / (d : ℝ)))) ∧
    (∀ j : ℕ, j < d → pos_enc_entry d 0 j = if j % 2 = 0 then 0 else 1) ∧
    (∀ p j : ℕ, j < d → |pos_enc_entry d p j| ≤ 1) := by
  have hangle : ∀ p i : ℕ,
      (p : ℝ) * div_term d i =
        (p : ℝ) / (10000 : ℝ) ^ ((2 * (i : ℝ)) / (d : ℝ)) := by
    intro p i
    rw [div_term_eq, Real.rpow_neg (by norm_num), div_eq_mul_inv]
    push_cast
    ring_nf
  refine ⟨⟨(List.range L).map fun pos =>
      (List.range d).map fun j => pos_enc_entry d pos j,
      by simp only [pos_enc_table, if_pos hd], by simp, ?_⟩, ?_, ?_, ?_, ?_⟩
  · intro row hrow
    simp only [List.mem_map] at hrow
    obtain ⟨p, -, rfl⟩ := hrow
    simp
  · intro p i _
    have h1 : (2 * i) % 2 = 0 := by omega
    have h2 : (2 * i) / 2 = i := by omega
    simp only [pos_enc_entry, h1, h2, if_pos, hangle]
  · intro p i _
    have h1 : (2 * i + 1) % 2 = 1 := by omega
    have h2 : (2 * i + 1) / 2 = i := by omega
    simp only [pos_enc_entry, h1, h2, hangle]
    norm_num
  · intro j _
    simp only [pos_enc_entry, Nat.cast_zero, zero_mul, Real.sin_zero,
      Real.cos_zero]
  · intro p j _
    unfold pos_enc_entry
    split
    · exact Real.abs_sin_le_one _
    · exact Real.abs_cos_le_one _

/-- C8 counterexample: at the odd width d_model = 3 (max_len = 1) the
construction fails — the cos assignment writes 2 columns into 1 — so no
table of shape (max_len, d_model) exists, refuting the claim for every
d_model. -/
theorem claim8_counterexample : pos_enc_table 3 1 = none := by
  simp [pos_enc_table]

/-- C8 witness: the amended statement at d_model = 2, max_len = 3. -/
theorem claim8_witness :
    2 % 2 = 0 ∧
    (∃ T, pos_enc_table 2 3 = some T ∧ T.length = 3 ∧
      ∀ row ∈ T, row.length = 2) :=
  ⟨rfl, (claim8_pos_enc 2 3 rfl).1⟩

/-! ## Forward-shape lemmas and claims C6, C7 -/

/-- The MLP forward pass maps a (B, lk^2) batch to (B, num_invariants),
whatever the classification flag is. -/
lemma mlp_shape (B lk hid numInv numCls : ℕ) (dr : ℚ) (cls : Bool) :
    MLP.forwardShape ⟨lk, hid, dr, numInv, cls, numCls⟩ [B, lk ^ 2] =
      some [B, numInv] := by
  simp [MLP.forwardShape, linearShape]

/-- An optional LayerNorm whose normalized shape is a suffix of the input
shape preserves the shape in both branches. -/
lemma optional_norm (b : Bool) (ns s : Shape) (h : ns <:+ s) :
    (if b then layerNormShape ns s else some s) = some s := by
  have hl : layerNormShape ns s = some s := by
    simp only [layerNormShape, if_pos h]
  cases b <;> simp [hl]

/-- The CNN forward pass maps a (B, 1, lk, lk) batch to
(B, num_classes) in classification mode and (B, num_invariants)
otherwise, for kernel size 3 (padding 1) or kernel size 2 with lk ≥ 4. -/
lemma cnn_shape (B lk numInv numCls k : ℕ) (ln cls : Bool)
    (hk : k = 3 ∨ (k = 2 ∧ 4 ≤ lk)) (hlk : 1 ≤ lk) :
    CNN.forwardShape ⟨lk, k, ln, numInv, cls, numCls⟩ [B, 1, lk, lk] =
      some [B, if cls then numCls else numInv] := by
  rcases hk with rfl | ⟨rfl, h4⟩
  · have c1 : conv2dShape 1 16 3 1 [B, 1, lk, lk] = some [B, 16, lk, lk] := by
      simp only [conv2dShape]
      rw [if_pos ⟨by trivial, by omega, by omega⟩]
      have h : lk + 2 * 1 - 3 + 1 = lk := by omega
      rw [h]
    have c2 : conv2dShape 16 32 3 1 [B, 16, lk, lk] = some [B, 32, lk, lk] := by
      simp only [conv2dShape]
      rw [if_pos ⟨by trivial, by omega, by omega⟩]
      have h : lk + 2 * 1 - 3 + 1 = lk := by omega
      rw [h]
    have c3 : conv2dShape 32 64 3 1 [B, 32, lk, lk] = some [B, 64, lk, lk] := by
      simp only [conv2dShape]
      rw [if_pos ⟨by trivial, by omega, by omega⟩]
      have h : lk + 2 * 1 - 3 + 1 = lk := by omega
      rw [h]
    simp [CNN.forwardShape, c1, c2, c3,
      optional_norm ln [16, lk, lk] [B, 16, lk, lk] ⟨[B], rfl⟩,
      optional_norm ln [32, lk, lk] [B, 32, lk, lk] ⟨[B], rfl⟩,
      optional_norm ln [64, lk, lk] [B, 64, lk, lk] ⟨[B], rfl⟩,
      flattenFrom1Shape, linearShape, pow_two]
  · have c1 : conv2dShape 1 16 2 0 [B, 1, lk, lk] =
        some [B, 16, lk - 1, lk - 1] := by
      simp only [conv2dShape]
      rw [if_pos ⟨by trivial, by omega, by omega⟩]
      have h : lk + 2 * 0 - 2 + 1 = lk - 1 := by omega
      rw [h]
    have c2 : conv2dShape 16 32 2 0 [B, 16, lk - 1, lk - 1] =
        some [B, 32, lk - 2, lk - 2] := by
      simp only [conv2dShape]
      rw [if_pos ⟨by trivial, by omega, by omega⟩]
      have h : lk - 1 + 2 * 0 - 2 + 1 = lk - 2 := by omega
      rw [h]
    have c3 : conv2dShape 32 64 2 0 [B, 32, lk - 2, lk - 2] =
        some [B, 64, lk - 3, lk - 3] := by
      simp only [conv2dShape]
      rw [if_pos ⟨by trivial, by omega, by omega⟩]
      have h : lk - 2 + 2 * 0 - 2 + 1 = lk - 3 := by omega
      rw [h]
    have h1 : lk - (3 - 2) = lk - 1 := by omega
    have h2 : lk - 2 * (3 - 2) = lk - 2 := by omega
    have h3 : lk - 3 * (3 - 2) = lk - 3 := by omega
    simp [CNN.forwardShape, c1, c2, c3, h1, h2, h3,
      optional_norm ln [16, lk - 1, lk - 1] [B, 16, lk - 1, lk - 1] ⟨[B], rfl⟩,
      optional_norm ln [32, lk - 2, lk - 2] [B, 32, lk - 2, lk - 2] ⟨[B], rfl⟩,
      optional_norm ln [64, lk - 3, lk - 3] [B, 64, lk - 3, lk - 3] ⟨[B], rfl⟩,
      flattenFrom1Shape, linearShape, pow_two]

/-- The TransformerEncoder forward pass maps a (seq, B) token batch with
seq ≤ max_seq_length to the squeeze of (B, num_classes) in
classification mode and of (B, 1) in regression mode. -/
lemma transformer_shape (B vocab dm nh ne ff maxSeq seq numCls : ℕ)
    (cls : Bool) (hseq : seq ≤ maxSeq) :
    TransformerEncoder.forwardShape ⟨vocab, dm, nh, ne, ff, maxSeq, cls, numCls⟩
        [seq, B] =
      some (squeezeLastShape [B, if cls then numCls else 1]) := by
  have he : embedShape dm [seq, B] = [seq, B, dm] := rfl
  simp [TransformerEncoder.forwardShape, he, posEncShape, hseq,
    encoderStackShape, meanDim0Shape, linearShape]

/-- The GNN forward pass maps an (N, 1) node-feature matrix to
(1, num_classes) in classification mode and (1, 1) otherwise. -/
lemma gnn_shape (N gh gheads glayers numCls : ℕ) (cls : Bool) :
    GNN.forwardShape ⟨gh, gheads, glayers, cls, numCls⟩ [N, 1] =
      some [1, if cls then numCls else 1] := by
  have g3 : (if glayers = 3 then
        gatConvShape (gh * gheads) gh gheads [N, gh * gheads]
      else some [N, gh * gheads]) = some [N, gh * gheads] := by
    split
    · simp [gatConvShape]
    · rfl
  simp [GNN.forwardShape, gatConvShape, g3, meanDim0Shape, unsqueeze0Shape,
    linearShape]

/-- C6 counterexample: an MLP constructed with classification=True
(num_invariants left at its default 1, num_classes 41) maps a batch of
one flattened 2x2 matrix to shape (1, 1), not (1, num_classes) = (1, 41):
the MLP output layer ignores the classification flag. -/
theorem claim6_counterexample :
    MLP.forwardShape ⟨2, 3, 0, 1, true, 41⟩ [1, 2 ^ 2] = some [1, 1] ∧
    (some [1, 1] : Option Shape) ≠ some [1, 41] := by
  constructor
  · rfl
  · decide

/-- C6 amended: in classification mode CNN, TransformerEncoder (with
num_classes ≠ 1 and seq ≤ max_seq_length) and GNN produce a
(batch, num_classes) output — the GNN processes one graph per forward,
so its batch is 1 — while the MLP produces (batch, num_invariants)
regardless of the flag.  (The Reformer head lives in the external
reformer_pytorch collaborator and is not modelled.) -/
theorem claim6_shapes (B numCls : ℕ) (hc1 : numCls ≠ 1)
    (lk hid numInv : ℕ) (dr : ℚ) (k : ℕ) (ln : Bool)
    (hk : k = 3 ∨ (k = 2 ∧ 4 ≤ lk)) (hlk : 1 ≤ lk)
    (vocab dm nh ne ff maxSeq seq : ℕ) (hseq : seq ≤ maxSeq)
    (gh gheads glayers N : ℕ) :
    MLP.forwardShape ⟨lk, hid, dr, numInv, true, numCls⟩ [B, lk ^ 2] =
      some [B, numInv] ∧
    CNN.forwardShape ⟨lk, k, ln, numInv, true, numCls⟩ [B, 1, lk, lk] =
      some [B, numCls] ∧
    TransformerEncoder.forwardShape ⟨vocab, dm, nh, ne, ff, maxSeq, true, numCls⟩
        [seq, B] = some [B, numCls] ∧
    GNN.forwardShape ⟨gh, gheads, glayers, true, numCls⟩ [N, 1] =
      some [1, numCls] := by
  refine ⟨mlp_shape B lk hid numInv numCls dr true, ?_, ?_, ?_⟩
  · rw [cnn_shape B lk numInv numCls k ln true hk hlk]
    rfl
  · rw [transformer_shape B vocab dm nh ne ff maxSeq seq numCls true hseq]
    simp [squeezeLastShape, hc1]
  · rw [gnn_shape N gh gheads glayers numCls true]
    rfl

/-- C6 witness: the amended statement at concrete sizes (batch 2,
num_classes 41, lk 5, kernel 3, d_model 8, seq 4 ≤ 9, 6 graph nodes). -/
theorem claim6_witness :
    ((41 : ℕ) ≠ 1 ∧ ((3 : ℕ) = 3 ∨ ((3 : ℕ) = 2 ∧ 4 ≤ 5)) ∧ (1 : ℕ) ≤ 5 ∧
      (4 : ℕ) ≤ 9) ∧
    (MLP.forwardShape ⟨5, 7, 0, 1, true, 41⟩ [2, 5 ^ 2] = some [2, 1] ∧
      CNN.forwardShape ⟨5, 3, true, 1, true, 41⟩ [2, 1, 5, 5] = some [2, 41] ∧
      TransformerEncoder.forwardShape ⟨10, 8, 2, 1, 16, 9, true, 41⟩ [4, 2] =
        some [2, 41] ∧
      GNN.forwardShape ⟨3, 2, 2, true, 41⟩ [6, 1] = some [1, 41]) :=
  ⟨⟨by norm_num, Or.inl rfl, by norm_num, by norm_num⟩,
    claim6_shapes 2 41 (by norm_num) 5 7 1 0 3 true (Or.inl rfl) (by norm_num)
      10 8 2 1 16 9 4 (by norm_num) 3 2 2 6⟩

/-- C7 counterexample: an MLP constructed with classification=False and
num_invariants = num_classes = 41 maps a batch of one flattened 2x2
matrix to shape (1, 41) — which is neither (1, 1) nor (1,) and equals
(batch, num_classes), refuting both parts of the claim. -/
theorem claim7_counterexample :
    MLP.forwardShape ⟨2, 3, 0, 41, false, 41⟩ [1, 2 ^ 2] = some [1, 41] ∧
    ([1, 41] : Shape) ≠ [1, 1] ∧ ([1, 41] : Shape) ≠ [1] := by
  refine ⟨rfl, ?_, ?_⟩ <;> decide

/-- C7 amended: in regression mode the MLP and CNN produce
(batch, num_invariants) — which is (batch, 1) only under the default
num_invariants = 1 — the TransformerEncoder produces (batch,) after its
squeeze, and the GNN produces (1, 1).  (The Reformer output shape is
fixed by the external reformer_pytorch collaborator and is not
modelled.) -/
theorem claim7_shapes (B numCls : ℕ)
    (lk hid numInv : ℕ) (dr : ℚ) (k : ℕ) (ln : Bool)
    (hk : k = 3 ∨ (k = 2 ∧ 4 ≤ lk)) (hlk : 1 ≤ lk)
    (vocab dm nh ne ff maxSeq seq : ℕ) (hseq : seq ≤ maxSeq)
    (gh gheads glayers N : ℕ) :
    MLP.forwardShape ⟨lk, hid, dr, numInv, false, numCls⟩ [B, lk ^ 2] =
      some [B, numInv] ∧
    CNN.forwardShape ⟨lk, k, ln, numInv, false, numCls⟩ [B, 1, lk, lk] =
      some [B, numInv] ∧
    TransformerEncoder.forwardShape ⟨vocab, dm, nh, ne, ff, maxSeq, false, numCls⟩
        [seq, B] = some [B] ∧
    GNN.forwardShape ⟨gh, gheads, glayers, false, numCls⟩ [N, 1] =
      some [1, 1] := by
  refine ⟨mlp_shape B lk hid numInv numCls dr false, ?_, ?_, ?_⟩
  · rw [cnn_shape B lk numInv numCls k ln false hk hlk]
    rfl
  · rw [transformer_shape B vocab dm nh ne ff maxSeq seq numCls false hseq]
    simp [squeezeLastShape]
  · rw [gnn_shape N gh gheads glayers numCls false]
    rfl

/-- C7 witness: the amended statement at concrete sizes with the default
num_invariants = 1. -/
theorem claim7_witness :
    (((3 : ℕ) = 3 ∨ ((3 : ℕ) = 2 ∧ 4 ≤ 5)) ∧ (1 : ℕ) ≤ 5 ∧ (4 : ℕ) ≤ 9) ∧
    (MLP.forwardShape ⟨5, 7, 0, 1, false, 41⟩ [2, 5 ^ 2] = some [2, 1] ∧
      CNN.forwardShape ⟨5, 3, true, 1, false, 41⟩ [2, 1, 5, 5] = some [2, 1] ∧
      TransformerEncoder.forwardShape ⟨10, 8, 2, 1, 16, 9, false, 41⟩ [4, 2] =
        some [2] ∧
      GNN.forwardShape ⟨3, 2, 2, false, 41⟩ [6, 1] = some [1, 1]) :=
  ⟨⟨Or.inl rfl, by norm_num, by norm_num⟩,
    claim7_shapes 2 41 5 7 1 0 3 true (Or.inl rfl) (by norm_num)
      10 8 2 1 16 9 4 (by norm_num) 3 2 2 6⟩

end Curiosity
